import Mathlib

/-!
Verification development for the glycan graph core of glycowork
(`glycowork/motif/graph.py`): notation-string parsing to attributed
undirected graphs, serialization back to notation, exact and subgraph
isomorphism matching with occurrence counting, largest-common-subgraph
renumbering, and topology enumeration for floating substituents.

The Python code is shallowly embedded: notation strings are `List Char`,
NetworkX graphs are association-list structures that keep node insertion
order (which NetworkX iteration order depends on), and the handful of
Python string primitives the source leans on (`str.replace`, `str.index`,
`str.rfind`, slicing, the two `re.sub` patterns, `max` on strings) are
reproduced with their CPython semantics.  Where CPython would raise an
exception on inputs outside the domain exercised here (e.g. `part[-1]` on
an empty slice, `min([])`), the embedding returns an explicitly documented
sentinel; every concrete evaluation below stays inside the exception-free
domain.
-/

/-- Notation strings and tokens are lists of characters, mirroring Python
strings. -/
abbrev Str := List Char

/-- Sentinel used where CPython would raise (never a real character of any
notation). -/
def nullCh : Char := Char.ofNat 0

/-- Python `s[-1]` for the guards in `evaluate_adjacency`; CPython raises
`IndexError` on the empty string, the model returns the sentinel (which
matches no delimiter, so the guard is false). -/
def pyLastD (s : Str) : Char := s.getLastD nullCh

/-- Python `s[:-1]`. -/
def pyDropLast (s : Str) : Str := s.dropLast

/-- Whether `t` occurs at the start of `s`. -/
def startsWithStr (s t : Str) : Bool := s.take t.length == t

/-- First index at which the substring `t` occurs in `s` (Python
`s.find(t)` / the success case of `s.index(t)`), `none` when absent. -/
def pyFindSub : Str → Str → Nat → Option Nat
  | s, t, i =>
    if startsWithStr s t then some i
    else
      match s with
      | [] => none
      | _ :: rest => pyFindSub rest t (i + 1)

/-- Python `s.replace(old, new, 1)`: replace the first occurrence only. -/
def pyReplaceFirst (s old new : Str) : Str :=
  match pyFindSub s old 0 with
  | none => s
  | some i => s.take i ++ new ++ s.drop (i + old.length)

/-- One pass of Python `s.replace(old, new)`: every non-overlapping
occurrence, left to right (fuel bounds the recursion; `s.length + 1` always
suffices for non-empty `old`). -/
def pyReplaceAllGo : Nat → Str → Str → Str → Str
  | 0, s, _, _ => s
  | fuel + 1, s, old, new =>
    match pyFindSub s old 0 with
    | none => s
    | some i => s.take i ++ new ++ pyReplaceAllGo fuel (s.drop (i + old.length)) old new

/-- Python `s.replace(old, new)`. -/
def pyReplaceAll (s old new : Str) : Str := pyReplaceAllGo (s.length + 1) s old new

/-- Python `while old in s: s = s.replace(old, new)` as used for the
doubled-bracket normalizations in `graph_to_string`. -/
def pyWhileReplace : Nat → Str → Str → Str → Str
  | 0, s, _, _ => s
  | fuel + 1, s, old, new =>
    if (pyFindSub s old 0).isSome then pyWhileReplace fuel (pyReplaceAll s old new) old new
    else s

/-- Python slice `s[a:b]` for `0 ≤ a`, empty when `b ≤ a`. -/
def pySlice (s : Str) (a b : Nat) : Str := (s.drop a).take (b - a)

/-- Decimal digits of `k`, i.e. Python `str(k)`. -/
def natStr (k : Nat) : Str := Nat.toDigits 10 k

/-- Python `max` on a non-empty list of ints (`max([])` raises; the model
returns 0 there, a case never reached below). -/
def pyMaxD : List Nat → Nat
  | [] => 0
  | x :: xs => xs.foldl max x

/-- Python `min` on a non-empty list of ints (`min([])` raises; the model
returns 0 there, a case never reached below). -/
def pyMinD : List Nat → Nat
  | [] => 0
  | x :: xs => xs.foldl min x

/-- Python string comparison: lexicographic on code points, a proper
initial segment compares less than its extension. -/
def pyStrLt : Str → Str → Bool
  | [], [] => false
  | [], _ :: _ => true
  | _ :: _, [] => false
  | a :: as, b :: bs =>
    if a.toNat < b.toNat then true
    else if b.toNat < a.toNat then false
    else pyStrLt as bs

/-- Python `max(a, b)` on strings: the second argument wins exactly when it
compares strictly greater. -/
def pyMaxStr (a b : Str) : Str := if pyStrLt a b then b else a

/-- Python `s.rfind(c) + 1`: one past the last occurrence of the character
`c`, and 0 when `c` does not occur (rfind returns -1 there). -/
def pyRfindP1 (s : Str) (c : Char) : Nat :=
  match (((List.range s.length).filter (fun i => s.getD i nullCh == c))).getLast? with
  | some i => i + 1
  | none => 0

/-- The attributed undirected graph produced by the parser: `nodes` in
NetworkX insertion order, `edges` as unordered pairs in insertion order,
and the three node-attribute dictionaries used by the matchers. -/
structure NXGraph where
  nodes : List Nat
  edges : List (Nat × Nat)
  string_labels : List (Nat × Str)
  labels : List (Nat × Nat)
  termini : List (Nat × Str)
deriving DecidableEq, Repr, Inhabited

/-- Attribute-dictionary lookup (`dict.get`). -/
def attrFind {α : Type} (l : List (Nat × α)) (k : Nat) : Option α :=
  (l.find? (fun p => p.1 == k)).map (·.2)

/-- Whether `u` and `v` are adjacent (edges are undirected). -/
def NXGraph.hasEdge (g : NXGraph) (u v : Nat) : Bool :=
  g.edges.any (fun e => (e.1 == u && e.2 == v) || (e.1 == v && e.2 == u))

/-- Degree of node `v` (graphs here carry no self-loops). -/
def NXGraph.degree (g : NXGraph) (v : Nat) : Nat :=
  (g.edges.filter (fun e => e.1 == v || e.2 == v)).length

/-- NetworkX `remove_nodes_from`: drop the nodes, their incident edges and
their attribute entries. -/
def NXGraph.removeNodes (g : NXGraph) (ks : List Nat) : NXGraph where
  nodes := g.nodes.filter (fun v => !(ks.contains v))
  edges := g.edges.filter (fun e => !(ks.contains e.1) && !(ks.contains e.2))
  string_labels := g.string_labels.filter (fun p => !(ks.contains p.1))
  labels := g.labels.filter (fun p => !(ks.contains p.1))
  termini := g.termini.filter (fun p => !(ks.contains p.1))

/-- NetworkX `add_edge`: endpoints are appended as fresh nodes when absent,
the edge is appended when not already present. -/
def NXGraph.addEdge (g : NXGraph) (u v : Nat) : NXGraph :=
  let ns := g.nodes ++ (if g.nodes.contains u then [] else [u])
  let ns := ns ++ (if ns.contains v then [] else [v])
  { g with
    nodes := ns
    edges := if g.hasEdge u v then g.edges else g.edges ++ [(u, v)] }

/-- NetworkX `relabel_nodes` with an (injective-on-nodes) mapping: node
order is preserved, ids and attribute keys are rewritten. -/
def relabelNodes (g : NXGraph) (m : Nat → Nat) : NXGraph where
  nodes := g.nodes.map m
  edges := g.edges.map (fun e => (m e.1, m e.2))
  string_labels := g.string_labels.map (fun p => (m p.1, p.2))
  labels := g.labels.map (fun p => (m p.1, p.2))
  termini := g.termini.map (fun p => (m p.1, p.2))

/-- NetworkX `G.subgraph(ks)`: the induced subgraph, nodes kept in `g`'s
iteration order. -/
def NXGraph.inducedSubgraph (g : NXGraph) (ks : List Nat) : NXGraph where
  nodes := g.nodes.filter (fun v => ks.contains v)
  edges := g.edges.filter (fun e => ks.contains e.1 && ks.contains e.2)
  string_labels := g.string_labels.filter (fun p => ks.contains p.1)
  labels := g.labels.filter (fun p => ks.contains p.1)
  termini := g.termini.filter (fun p => ks.contains p.1)

/-- NetworkX `compose(G, H)` for the graphs composed here: `G`'s nodes
first, then `H`'s new ones; on shared keys `H`'s attributes win. -/
def nxCompose (g h : NXGraph) : NXGraph where
  nodes := g.nodes ++ h.nodes.filter (fun v => !(g.nodes.contains v))
  edges := g.edges ++ h.edges.filter (fun e => !(g.edges.contains e))
  string_labels :=
    g.string_labels.filter (fun p => (attrFind h.string_labels p.1).isNone) ++ h.string_labels
  labels := g.labels.filter (fun p => (attrFind h.labels p.1).isNone) ++ h.labels
  termini := g.termini.filter (fun p => (attrFind h.termini p.1).isNone) ++ h.termini

/-! ## Tokenizer and grammar parser -/

/-- Characters that delimit glycoletters in the condensed notation. -/
def glycoDelim (c : Char) : Bool :=
  c == '(' || c == ')' || c == '[' || c == ']' || c == Char.ofNat 123 || c == Char.ofNat 125

/-- Splitting helper for the tokenizer: cut at delimiter characters. -/
def splitAtDelims : Str → Str → List Str
  | [], acc => [acc.reverse]
  | c :: rest, acc =>
    if glycoDelim c then acc.reverse :: splitAtDelims rest []
    else splitAtDelims rest (c :: acc)

/-- Modelled from the spec: the Tokenizer (`min_process_glycans` from
`glycowork.motif.processing`, which is not part of the core sources) is an
external collaborator "producing the ordered token sequence for a notation
string"; tokens are the maximal runs of token characters between the
delimiters `(`, `)`, `[`, `]` and the floating-component braces. -/
def min_process_glycan (s : Str) : List Str :=
  (splitAtDelims s []).filter (fun t => !t.isEmpty)

/-- Direct embedding of `evaluate_adjacency(glycan_part, adjustment)`:
two masked glycoletters are adjacent when the part between them is a short
run ending in a parenthesis, possibly followed by one branch delimiter. -/
def evaluate_adjacency (part : Str) (adjustment : Nat) : Bool :=
  if (pyLastD part == '(' || pyLastD part == ')') && part.length < 2 + adjustment then true
  else if pyLastD part == ']' then
    (pyLastD (pyDropLast part) == '(' || pyLastD (pyDropLast part) == ')')
      && (pyDropLast part).length < 2 + adjustment
  else false

/-- Leftmost match of the regex `\[[^\[\]]+\]` (a bracket group with a
non-empty bracket-free body): start index and total length. -/
def findInnerGroup : Str → Nat → Option (Nat × Nat)
  | [], _ => none
  | c :: rest, i =>
    if c == '[' then
      let run := rest.takeWhile (fun d => !(d == '[' || d == ']'))
      if 0 < run.length && (rest.drop run.length).headD nullCh == ']' then
        some (i, run.length + 2)
      else findInnerGroup rest (i + 1)
    else findInnerGroup rest (i + 1)

/-- One `re.sub` step of `bracket_removal`, iterated with fuel. -/
def bracket_removal_go : Nat → Str → Str
  | 0, s => s
  | fuel + 1, s =>
    match findInnerGroup s 0 with
    | none => s
    | some (i, len) => bracket_removal_go fuel (s.take i ++ s.drop (i + len))

/-- Direct embedding of `bracket_removal(glycan_part)`: iteratively delete
complete innermost bracket groups. -/
def bracket_removal (s : Str) : Str := bracket_removal_go s.length s

/-- The `adjustment` computed inside `glycan_to_graph`'s pair loop: masked
ids take 1 to 3 characters. -/
def adjustmentFor (k : Nat) : Nat :=
  if 100 ≤ k then 2 else if 10 ≤ k then 1 else 0

/-- The masking loop of `glycan_to_graph`: each glycoletter is replaced (first
occurrence only) by its decimal node id, in node order. -/
def maskedGlycan (glycan : Str) (proc : List Str) : Str :=
  (List.range proc.length).foldl (fun g k => pyReplaceFirst g (proc.getD k []) (natStr k)) glycan

/-- The adjacency decision of `glycan_to_graph` for node pair `k < j`: look
at the masked substring strictly between the two ids, first directly, then
after `bracket_removal` when the remainder is short enough.  CPython raises
`ValueError` in `str.index` when a masked id is absent; the model reports
non-adjacency there (never reached on the inputs evaluated below). -/
def adjacentPair (masked : Str) (k j : Nat) : Bool :=
  let adjustment := adjustmentFor k
  match pyFindSub masked (natStr k) 0, pyFindSub masked (natStr j) 0 with
  | some ik, some ij =>
    let part := pySlice masked (ik + 1) ij
    if evaluate_adjacency part adjustment then true
    else if (bracket_removal part).length ≤ 2 + adjustment then
      evaluate_adjacency (bracket_removal part) adjustment
    else false
  | _, _ => false

/-- Direct embedding of `glycan_to_graph(glycan)`: the node dictionary (the
token sequence) and the adjacency edges `(k, j)` with `k < j` in row-major
order, as `nx.from_numpy_matrix` will enumerate them. -/
def glycan_to_graph (glycan : Str) : List Str × List (Nat × Nat) :=
  let proc := min_process_glycan glycan
  let masked := maskedGlycan glycan proc
  let n := proc.length
  let edges :=
    ((List.range n).map (fun k =>
      (((List.range n).filter (fun j => k < j)).filter (adjacentPair masked k)).map
        (fun j => (k, j)))).flatten
  (proc, edges)

/-- The `termini` argument of the graph constructors. -/
inductive TerminiMode
  | ignore
  | calc
  | provided
deriving DecidableEq, Repr

/-- Python `libr.index(tok)`: position of a token in the registry.  CPython
raises `ValueError` for unknown tokens (`UnknownTokenError` in the spec);
the model returns `libr.length` there, an index no registry entry has. -/
def registryIndex (libr : List Str) (tok : Str) : Nat := libr.indexOf tok

/-- Direct embedding of `glycan_to_nxGraph_int`: mask the notation, build
the graph from the adjacency matrix, apply the `override_reducing_end`
append/strip steps, then attach the `labels`, `string_labels` and optional
`termini` node attributes (`set_node_attributes` silently skips keys that
are not nodes). -/
def glycan_to_nxGraph_int (glycan : Str) (libr : List Str) (termini : TerminiMode)
    (termini_list : List Str) (override_reducing_end : Bool) : NXGraph :=
  let glycan :=
    if override_reducing_end && pyLastD glycan == ')' then glycan ++ ("Hex").data else glycan
  let nd := glycan_to_graph glycan
  let node_dict := nd.1
  let g1 : NXGraph :=
    if 1 < node_dict.length then ⟨List.range node_dict.length, nd.2, [], [], []⟩
    else ⟨[0], [], [], [], []⟩
  let g1 :=
    if override_reducing_end && pyLastD glycan == 'x' then
      g1.removeNodes [g1.nodes.length - 1]
    else g1
  let sl := (List.range node_dict.length).filterMap
    (fun k => if g1.nodes.contains k then some (k, node_dict.getD k []) else none)
  let lb := (List.range node_dict.length).filterMap
    (fun k => if g1.nodes.contains k then some (k, registryIndex libr (node_dict.getD k [])) else none)
  let tm :=
    match termini with
    | .ignore => []
    | .calc => g1.nodes.map (fun k =>
        (k, if g1.degree k == 1 then ("terminal").data else ("internal").data))
    | .provided => g1.nodes.zip termini_list
  { nodes := g1.nodes, edges := g1.edges, string_labels := sl, labels := lb, termini := tm }

/-- Python `s.split(c)` at a single character, as `glycan_to_nxGraph` splits
at the (normalized) opening brace. -/
def splitAtChar : Str → Str → List Str
  | [], acc => [acc.reverse]
  | c :: rest, acc =>
    if c == Char.ofNat 123 then acc.reverse :: splitAtChar rest []
    else splitAtChar rest (c :: acc)

/-- The relabelling loop of `glycan_to_nxGraph` for floating components:
each part before the last is shifted past the ids consumed so far. -/
def shiftParts : List NXGraph → Nat → List NXGraph
  | [], _ => []
  | g :: rest, off => relabelNodes g (· + off) :: shiftParts rest (off + g.nodes.length)

/-- Direct embedding of the `glycan_to_nxGraph` wrapper: notations with a
braced floating component are split at the braces, every part is parsed
with `override_reducing_end = True`, the non-final (floating) parts are
relabelled above the main part's ids, and the parts are composed (floating
parts first, so they precede the main component in node insertion
order); brace-free notations go straight to `glycan_to_nxGraph_int`. -/
def glycan_to_nxGraph (glycan : Str) (libr : List Str) (termini : TerminiMode)
    (termini_list : List Str) (override_reducing_end : Bool) : NXGraph :=
  if glycan.contains (Char.ofNat 123) then
    let pieces := splitAtChar
      (glycan.map (fun c => if c == Char.ofNat 125 then Char.ofNat 123 else c)) []
    let parts := pieces.filter (fun k => 0 < k.length)
    let partsG := parts.map (fun k => glycan_to_nxGraph_int k libr termini termini_list true)
    let lenOrg := (partsG.getLastD default).nodes.length
    let shifted := shiftParts partsG.dropLast lenOrg ++ [partsG.getLastD default]
    match shifted with
    | [] => default
    | h :: t => t.foldl nxCompose h
  else glycan_to_nxGraph_int glycan libr termini termini_list override_reducing_end

/-! ## Node-compatibility predicates and the isomorphism matcher -/

/-- A dynamically-typed Python value, needed because `subgraph_isomorphism`
converts its `wildcard_list` to registry indices (ints) while
`categorical_node_match_wildcard` compares them against `string_labels`
(strings): Python `==` across those types is `False`, never an error. -/
inductive PyVal
  | int (n : Nat)
  | str (s : Str)
deriving DecidableEq, Repr

/-- Python `==` between dynamically-typed values: cross-type comparison is
simply false. -/
def pyValEq : PyVal → PyVal → Bool
  | .int a, .int b => a == b
  | .str a, .str b => a == b
  | _, _ => false

/-- Python `v in l` for a list of dynamic values. -/
def pyMem (v : PyVal) (l : List PyVal) : Bool := l.any (pyValEq v)

/-- The attribute dictionary of one node as the matchers see it.  A `none`
field models a missing key: `dict.get(key, default)` substitutes the
default, while `dict[key]` would raise in CPython (the embedding
substitutes a sentinel there; all graphs built by the parser carry every
accessed attribute). -/
structure NodeData where
  labels : Option Nat
  string_labels : Option Str
  termini : Option Str
deriving DecidableEq, Repr

/-- The attribute data of node `v`. -/
def NXGraph.dataOf (g : NXGraph) (v : Nat) : NodeData :=
  ⟨attrFind g.labels v, attrFind g.string_labels v, attrFind g.termini v⟩

/-- Sentinel for a raising `dict[...]` access on a string attribute. -/
def dictGetStr (o : Option Str) : Str := o.getD []

/-- Direct embedding of `nx...categorical_node_match('labels', len(libr))`:
registry ids must agree, missing entries default to `len(libr)`. -/
def categorical_node_match (default : Nat) (d1 d2 : NodeData) : Bool :=
  d1.labels.getD default == d2.labels.getD default

/-- Direct embedding of `categorical_node_match_wildcard(attr, default,
wildcard_list)` (string `attr` case): a node whose `string_labels` value is
in the wildcard list matches anything, otherwise fall back to the `labels`
comparison. -/
def categorical_node_match_wildcard (default : Nat) (wl : List PyVal) (d1 d2 : NodeData) : Bool :=
  if pyMem (.str (dictGetStr d1.string_labels)) wl then true
  else if pyMem (.str (dictGetStr d2.string_labels)) wl then true
  else d1.labels.getD default == d2.labels.getD default

/-- Direct embedding of `categorical_termini_match('labels', 'termini',
len(libr), 'flexible')`: a `flexible` terminus on either side restricts the
check to the labels, otherwise labels and termini must both agree. -/
def categorical_termini_match (default1 : Nat) (default2 : Str) (d1 d2 : NodeData) : Bool :=
  if dictGetStr d1.termini == ("flexible").data then
    d1.labels.getD default1 == d2.labels.getD default1
  else if dictGetStr d2.termini == ("flexible").data then
    d1.labels.getD default1 == d2.labels.getD default1
  else
    d1.labels.getD default1 == d2.labels.getD default1
      && d1.termini.getD default2 == d2.termini.getD default2

/-- Whether host node `w` can extend a partial motif-to-host assignment for
motif node `u`: the node predicate holds and `w` is fresh and consistent
(edge iff edge, so the match is node-induced) with every established pair. -/
def assignOK (g1 g2 : NXGraph) (nm : NodeData → NodeData → Bool)
    (assigned : List (Nat × Nat)) (u w : Nat) : Bool :=
  nm (g1.dataOf w) (g2.dataOf u)
    && assigned.all (fun p => !(p.2 == w) && (g2.hasEdge u p.1 == g1.hasEdge w p.2))

/-- Backtracking search for a node-induced embedding of the motif `g2` into
the host `g1` under the node predicate `nm` — the question VF2's
`subgraph_is_isomorphic` decides.  Pairs are `(motif node, host node)`. -/
def findMappingGo (g1 g2 : NXGraph) (nm : NodeData → NodeData → Bool) :
    List Nat → List (Nat × Nat) → Option (List (Nat × Nat))
  | [], assigned => some assigned
  | u :: rest, assigned =>
    g1.nodes.findSome? (fun w =>
      if assignOK g1 g2 nm assigned u w then findMappingGo g1 g2 nm rest ((u, w) :: assigned)
      else none)

/-- A complete mapping when one exists (deterministic stand-in for the VF2
search; its `.2` components are the host nodes, i.e. `mapping.keys()`). -/
def findMapping (g1 g2 : NXGraph) (nm : NodeData → NodeData → Bool) :
    Option (List (Nat × Nat)) :=
  findMappingGo g1 g2 nm g2.nodes []

/-- Embedding of `GraphMatcher(g1, g2, node_match).subgraph_is_isomorphic()`. -/
def subgraphIsIso (g1 g2 : NXGraph) (nm : NodeData → NodeData → Bool) : Bool :=
  (findMapping g1 g2 nm).isSome

/-- Embedding of `nx.is_isomorphic(g1, g2, node_match)`: with equal node counts a
node-induced embedding is a full isomorphism. -/
def isIsomorphic (g1 g2 : NXGraph) (nm : NodeData → NodeData → Bool) : Bool :=
  g1.nodes.length == g2.nodes.length && subgraphIsIso g1 g2 nm

/-- Insertion step for sorting the joined label characters. -/
def insertChar (c : Char) : Str → Str
  | [] => [c]
  | d :: rest => if c.toNat ≤ d.toNat then c :: d :: rest else d :: insertChar c rest

/-- Python `sorted` on the characters of a string. -/
def charSort : Str → Str
  | [] => []
  | c :: rest => insertChar c (charSort rest)

/-- The values of the `string_labels` attribute dictionary, in node order
(`nx.get_node_attributes(g, "string_labels").values()`). -/
def hostLabelValues (g : NXGraph) : List Str := g.string_labels.map (·.2)

/-- Direct embedding of `compare_glycans` on two already-built graphs (the
string entry path builds the same graphs first): equal node counts, then
either wildcard isomorphism, or the sorted joined-label pre-check followed
by exact isomorphism on registry ids. -/
def compare_glycans (g1 g2 : NXGraph) (libr : List Str)
    (wildcards : Bool) (wildcard_list : List Str) : Bool :=
  if g1.nodes.length == g2.nodes.length then
    if wildcards then
      isIsomorphic g1 g2 (categorical_node_match_wildcard libr.length (wildcard_list.map .str))
    else
      if charSort (hostLabelValues g1).flatten == charSort (hostLabelValues g2).flatten then
        isIsomorphic g1 g2 (categorical_node_match libr.length)
      else false
  else false

/-! ## subgraph_isomorphism -/

/-- The `extra` argument of `subgraph_isomorphism` (any other string would
leave `graph_pair` undefined and raise `NameError` in the source). -/
inductive MatchMode
  | ignore
  | wildcards
  | termini
deriving DecidableEq, Repr

/-- The wildcard-list conversion at the top of `subgraph_isomorphism`: a
non-empty list of wildcard names is replaced by their registry indices
(ints), an empty list is left as the (string-valued, empty) original. -/
def sgiWildcardVals (libr : List Str) (wildcard_list : List Str) : List PyVal :=
  if 1 ≤ wildcard_list.length then wildcard_list.map (fun k => .int (registryIndex libr k))
  else wildcard_list.map .str

/-- The motif graph `g2` built by `subgraph_isomorphism`: termini mode
parses with provided termini, the other modes ignore termini; every mode
passes `override_reducing_end = True`. -/
def motifGraph (motif : Str) (libr : List Str) (extra : MatchMode)
    (termini_list : List Str) : NXGraph :=
  match extra with
  | .termini => glycan_to_nxGraph motif libr .provided termini_list true
  | _ => glycan_to_nxGraph motif libr .ignore [] true

/-- The node predicate `subgraph_isomorphism` hands to the `GraphMatcher`
for each mode. -/
def sgiNodeMatch (extra : MatchMode) (libr : List Str) (wl : List PyVal) :
    NodeData → NodeData → Bool :=
  match extra with
  | .ignore => categorical_node_match libr.length
  | .wildcards => categorical_node_match_wildcard libr.length wl
  | .termini => categorical_termini_match libr.length (("flexible").data)

/-- The label pre-check of `subgraph_isomorphism`: every token of the
motif's token list appears among the host's `string_labels` values. -/
def labelsOK (g : NXGraph) (motif_comp : List Str) : Bool :=
  motif_comp.all (fun t => (hostLabelValues g).contains t)

/-- The counting loop of `subgraph_isomorphism` (`count=True`): find one
occurrence, delete the matched host nodes from the working copy, re-apply
the label pre-check in the modes that have one, and continue.  `fuel`
bounds the recursion; the entry point passes `host nodes + 1`, which
theorem `counting_loop_fuel_independent` below shows is never exhausted
when the motif has a node. -/
def countLoop (g2 : NXGraph) (nm : NodeData → NodeData → Bool) (extra : MatchMode)
    (motif_comp : List Str) : Nat → NXGraph → Nat
  | 0, _ => 0
  | fuel + 1, g1 =>
    match findMapping g1 g2 nm with
    | none => 0
    | some mp =>
      let g1' := g1.removeNodes (mp.map (·.2))
      match extra with
      | .wildcards => 1 + countLoop g2 nm extra motif_comp fuel g1'
      | _ => if labelsOK g1' motif_comp then 1 + countLoop g2 nm extra motif_comp fuel g1'
             else 1

/-- Direct embedding of `subgraph_isomorphism(..., count=False)` with the
host supplied as a graph (the string entry path first builds the same
graph; `copy.deepcopy` makes the working graph `g1` an identical fresh
object): size pre-check, label pre-check in `ignore`/`termini` modes, then
one `subgraph_is_isomorphic` query. -/
def subgraph_isomorphism_bool (g : NXGraph) (motif : Str) (libr : List Str)
    (extra : MatchMode) (wildcard_list termini_list : List Str) : Bool :=
  let wl := sgiWildcardVals libr wildcard_list
  let motif_comp := min_process_glycan motif
  let g1 := g
  let g2 := motifGraph motif libr extra termini_list
  if g2.nodes.length ≤ g1.nodes.length then
    match extra with
    | .wildcards => subgraphIsIso g1 g2 (sgiNodeMatch extra libr wl)
    | _ =>
      if labelsOK g1 motif_comp then subgraphIsIso g1 g2 (sgiNodeMatch extra libr wl)
      else false
  else false

/-- Direct embedding of `subgraph_isomorphism(..., count=True)`: the same
pre-checks, then the greedy non-overlapping counting loop on the working
copy. -/
def subgraph_isomorphism_count (g : NXGraph) (motif : Str) (libr : List Str)
    (extra : MatchMode) (wildcard_list termini_list : List Str) : Nat :=
  let wl := sgiWildcardVals libr wildcard_list
  let motif_comp := min_process_glycan motif
  let g1 := g
  let g2 := motifGraph motif libr extra termini_list
  if g2.nodes.length ≤ g1.nodes.length then
    match extra with
    | .wildcards => countLoop g2 (sgiNodeMatch extra libr wl) extra motif_comp (g1.nodes.length + 1) g1
    | _ =>
      if labelsOK g1 motif_comp then
        countLoop g2 (sgiNodeMatch extra libr wl) extra motif_comp (g1.nodes.length + 1) g1
      else 0
  else 0

/-! ## Serializer (graph_to_string) -/

/-- Scanner for `re.sub('(\\([^\\()]*)\\(', r'\\1)', glycan)`: an opening
parenthesis, a run free of parentheses, and a second opening parenthesis
are rewritten so the run is closed by `)`; the engine resumes after the
consumed second parenthesis.  Fuel decreases once per emitted character, so
`s.length` suffices. -/
def resubParenGo : Nat → Str → Str
  | 0, s => s
  | _ + 1, [] => []
  | fuel + 1, c :: rest =>
    if c == '(' then
      let run := rest.takeWhile (fun d => !(d == '(' || d == ')'))
      match rest.drop run.length with
      | '(' :: rest2 => '(' :: (run ++ ')' :: resubParenGo fuel rest2)
      | after => '(' :: (run ++ resubParenGo fuel after)
    else c :: resubParenGo fuel rest

/-- The parenthesis-closing `re.sub` of `graph_to_string`. -/
def resubParen (s : Str) : Str := resubParenGo s.length s

/-- Characters the id-substitution regex treats as part of a token:
alphanumerics, hyphen and comma (`[^0-9a-zA-Z\\-,]` is its complement). -/
def isWordCh (c : Char) : Bool := c.isAlphanum || c == '-' || c == ','

/-- Scanner for `re.sub('([^0-9a-zA-Z\\-,])K([^0-9a-zA-Z\\-,])', r'\\1J\\2')`:
a masked id `pat` with non-token characters on both sides is replaced by
the label `j`; both boundary characters are consumed by the match, and the
engine otherwise advances one character. -/
def resubLabelGo : Nat → Str → Str → Str → Str
  | 0, s, _, _ => s
  | _ + 1, [], _, _ => []
  | fuel + 1, c :: rest, pat, j =>
    if isWordCh c then c :: resubLabelGo fuel rest pat j
    else if startsWithStr rest pat then
      match rest.drop pat.length with
      | [] => c :: resubLabelGo fuel rest pat j
      | d :: rest2 =>
        if isWordCh d then c :: resubLabelGo fuel rest pat j
        else c :: (j ++ d :: resubLabelGo fuel rest2 pat j)
    else c :: resubLabelGo fuel rest pat j

/-- One whole-string pass of the id-to-label substitution. -/
def resubLabel (s pat j : Str) : Str := resubLabelGo s.length s pat j

/-- Python list index access with the negative-index convention, for
`skeleton[idx-1]` (at `idx = 0` CPython writes to `skeleton[-1]`, the last
entry). -/
def skelAppendClose (sk : List Str) (idx : Nat) : List Str :=
  if idx == 0 then sk.set (sk.length - 1) (sk.getD (sk.length - 1) [] ++ (("]").data))
  else sk.set (idx - 1) (sk.getD (idx - 1) [] ++ (("]").data))

/-- Embedding of `np.where(['[' in m for m in skeleton[:k]])[0][-1]`: the last position
before `k` whose fragment contains an opening bracket.  CPython raises
`IndexError` when there is none; the model leaves the skeleton unchanged in
that case (not reached in the evaluations below). -/
def lastBracketIdx (sk : List Str) : Option Nat :=
  ((List.range sk.length).filter (fun m => (sk.getD m []).contains '[')).getLast?

/-- One iteration of the skeleton-annotation loop of `graph_to_string` at
position `k`: the reducing-end multibranch push (degree 3 at the final
fragment), the degree-4 push, the `]` prefix at ordinary branch points, and
the `[` prefix at non-initial leaves. -/
def skeletonStep (graph : NXGraph) (sk : List Str) (k : Nat) : List Str :=
  let sk :=
    if sk.getD k [] == sk.getLastD [] && graph.degree k == 3 then
      match lastBracketIdx (sk.take k) with
      | some idx => skelAppendClose sk idx
      | none => sk
    else sk
  if graph.degree k == 4 then
    match lastBracketIdx (sk.take k) with
    | some idx => skelAppendClose sk idx
    | none => sk
  else if 2 < graph.degree k then sk.set k (']' :: sk.getD k [])
  else if graph.degree k == 1 && 0 < k then sk.set k ('[' :: sk.getD k [])
  else sk

/-- The final truncation of `graph_to_string`: Python
`max(glycan[:glycan.rfind(')')+1], glycan[:glycan.rfind(']')+1])`, the
lexicographic maximum of the two candidate prefixes, kept before the
terminal anchor's label is appended. -/
def terminalTruncate (s : Str) : Str :=
  pyMaxStr (s.take (pyRfindP1 s ')')) (s.take (pyRfindP1 s ']'))

/-- Insertion step for sorting node ids in descending order. -/
def insertDesc (k : Nat) : List Nat → List Nat
  | [] => [k]
  | x :: rest => if x ≤ k then k :: x :: rest else x :: insertDesc k rest

/-- Keys of the node-label dictionary sorted in reverse, as
`dict(sorted(node_labels.items(), reverse=True))` iterates them. -/
def sortedKeysDesc (l : List (Nat × Str)) : List Nat :=
  (l.map (·.1)).foldr insertDesc []

/-- Direct embedding of `graph_to_string(graph)` (the non-fallback path):
note branch points from id-jumping edges, annotate the skeleton by degree,
join with `(`, normalize brackets with the fixed substitutions, substitute
labels for ids in descending id order, splice the first label, truncate at
the longer of the two candidate prefixes and append the terminal label. -/
def graph_to_string (graph : NXGraph) : Str :=
  let node_labels := graph.string_labels
  let branch_points := (graph.edges.filter
    (fun e => 1 < (e.1 - e.2) + (e.2 - e.1))).map (·.2)
  let skeleton := (node_labels.map (·.1)).map
    (fun k => if branch_points.contains k then ']' :: natStr k else natStr k)
  let skeleton := (List.range skeleton.length).foldl (skeletonStep graph) skeleton
  let glycan := pyDropLast (List.intercalate (("(").data) skeleton)
  let glycan := resubParen glycan
  let glycan := pyReplaceAll glycan (("[)").data) ((")[").data)
  let glycan := pyReplaceAll glycan (("])").data) ((")]").data)
  let glycan := pyWhileReplace glycan.length glycan (("]]").data) (("]").data)
  let glycan := pyWhileReplace glycan.length glycan (("[[").data) (("[").data)
  let glycan := (sortedKeysDesc node_labels).foldl (fun gl k =>
    if !(k == 0) && !(k == node_labels.length - 1) then
      let j := (attrFind node_labels k).getD []
      let j := if (j.headD nullCh).isDigit then '_' :: j else j
      resubLabel gl (natStr k) j
    else gl) glycan
  let glycan := (attrFind node_labels 0).getD [] ++ glycan.drop 1
  let glycan := terminalTruncate glycan ++ (attrFind node_labels (node_labels.length - 1)).getD []
  pyReplaceAll glycan (("_").data) []

/-! ## Connected components, topology enumeration, largest common subgraph -/

/-- One round of frontier expansion for reachability. -/
def reachableGo (g : NXGraph) : Nat → List Nat → List Nat
  | 0, acc => acc
  | fuel + 1, acc =>
    let nxt := acc ++ g.nodes.filter (fun v => !(acc.contains v) && acc.any (fun u => g.hasEdge u v))
    if nxt.length == acc.length then acc else reachableGo g fuel nxt

/-- Nodes reachable from `v` (including `v`). -/
def reachableFrom (g : NXGraph) (v : Nat) : List Nat := reachableGo g g.nodes.length [v]

/-- Embedding of `nx.connected_components(g)`: components in order of first appearance in
`g`'s node iteration order; each component holds its nodes in that same
order (as the subgraph views built on them will iterate them). -/
def ccGo (g : NXGraph) : List Nat → List Nat → List (List Nat)
  | [], _ => []
  | v :: rest, seen =>
    if seen.contains v then ccGo g rest seen
    else
      let comp := g.nodes.filter (fun u => (reachableFrom g v).contains u)
      comp :: ccGo g rest (seen ++ comp)

/-- The connected components of `g`. -/
def connectedComponents (g : NXGraph) : List (List Nat) := ccGo g g.nodes []

/-- Embedding of `nx.is_connected(g)` (false on the empty graph, where NetworkX
raises). -/
def isConnected (g : NXGraph) : Bool :=
  match g.nodes with
  | [] => false
  | v :: _ => g.nodes.all (fun u => (reachableFrom g v).contains u)

/-- The dense renumbering applied to every candidate topology:
`nx.relabel_nodes(g2, {list(g2.nodes())[j]: j for j in range(len(g2.nodes()))})`,
i.e. the j-th node in iteration order becomes j. -/
def relabelDense (g : NXGraph) : NXGraph :=
  relabelNodes g (fun v => g.nodes.indexOf v)

/-- Direct embedding of `get_possible_topologies(glycan)` on an
already-built graph (`ensure_graph` passes graphs through unchanged): for
every degree-1 node of the last-listed component (`parts[-1]`, the main
component when the graph was composed floating-parts-first) other than its
highest id, deep-copy the graph, add an edge from the first-listed
component's highest id (the floating component's highest node) to it, and
renumber densely by iteration order. -/
def get_possible_topologies (ggraph : NXGraph) : List NXGraph :=
  let parts := connectedComponents ggraph
  let pLast := parts.getLastD []
  let pFirst := parts.headD []
  let subLast := ggraph.inducedSubgraph pLast
  (pLast.filter (fun k => subLast.degree k == 1 && !(k == pyMaxD pLast))).map
    (fun k => relabelDense (ggraph.addEdge (pyMaxD pFirst) k))

/-- All partial injections from the first node list into the second, as
`(a-node, b-node)` pair lists; the support lists every subset of the
`a`-nodes in order. -/
def injectionCandidates : List Nat → List Nat → List (List (Nat × Nat))
  | [], _ => [[]]
  | x :: rest, bs =>
    (injectionCandidates rest bs).flatMap (fun m =>
      m :: (bs.filter (fun w => !(m.any (fun p => p.2 == w)))).map (fun w => (x, w) :: m))

/-- Pairwise check over a list. -/
def pairwiseAll {α : Type} : List α → (α → α → Bool) → Bool
  | [], _ => true
  | x :: rest, f => rest.all (f x) && pairwiseAll rest f

/-- Whether a pair list is a common-induced-subgraph correspondence between
`a` and `b` under the exact label predicate — what an ISMAGS common
subgraph is. -/
def isCommonCorr (a b : NXGraph) (libr : List Str) (m : List (Nat × Nat)) : Bool :=
  m.all (fun p => categorical_node_match libr.length (a.dataOf p.1) (b.dataOf p.2))
    && pairwiseAll m (fun p q => a.hasEdge p.1 q.1 == b.hasEdge p.2 q.2)

/-- The `a`-side key sets (as ordered lists) of the maximum-size common
correspondences between `a` and `b` — the possible values of
`largest_common_subgraph[i].keys()` in `largest_subgraph`, deduplicated. -/
def maxCommonKeySets (a b : NXGraph) (libr : List Str) : List (List Nat) :=
  let corrs := (injectionCandidates a.nodes b.nodes).filter (isCommonCorr a b libr)
  let mx := (corrs.map (·.length)).foldl max 0
  ((corrs.filter (fun m => m.length == mx)).map (fun m => m.map (·.1))).eraseDups

/-- The renumbering map `largest_subgraph` builds for the matched induced
subgraph: `node_dic = {k: k - min_num for k in lgs.nodes()}`. -/
def lgs_renumber_map (keys : List Nat) : Nat → Nat :=
  fun k => k - pyMinD keys

/-- The matched induced subgraph of `largest_subgraph` after its
renumbering step (`graph_a.subgraph(keys)` relabelled by
`lgs_renumber_map`). -/
def lgs_renumbered (a : NXGraph) (keys : List Nat) : NXGraph :=
  relabelNodes (a.inducedSubgraph keys) (lgs_renumber_map keys)

/-! ## Heap model of the count loop (mutation discipline) -/

/-- The counting loop threaded through an explicit object store: heap
reference 0 is the caller's graph object, reference `r` the working copy;
`remove_nodes_from` writes only through `r`, exactly as the source mutates
only `g1`. -/
def countLoopHeap (g2 : NXGraph) (nm : NodeData → NodeData → Bool) (extra : MatchMode)
    (motif_comp : List Str) : Nat → List NXGraph → Nat → Nat × List NXGraph
  | 0, st, _ => (0, st)
  | fuel + 1, st, r =>
    let g1 := st.getD r default
    match findMapping g1 g2 nm with
    | none => (0, st)
    | some mp =>
      let st' := st.set r (g1.removeNodes (mp.map (·.2)))
      match extra with
      | .wildcards =>
        let res := countLoopHeap g2 nm extra motif_comp fuel st' r
        (1 + res.1, res.2)
      | _ =>
        if labelsOK (st'.getD r default) motif_comp then
          let res := countLoopHeap g2 nm extra motif_comp fuel st' r
          (1 + res.1, res.2)
        else (1, st')

/-- Embedding of `subgraph_isomorphism` on a graph argument, with the heap made
explicit: the caller's object sits at reference 0, `copy.deepcopy(glycan)`
allocates the working object at reference 1, and all later mutation goes
through reference 1.  Returns the boolean or count result together with the
final heap. -/
def subgraph_isomorphism_heap (g : NXGraph) (motif : Str) (libr : List Str)
    (extra : MatchMode) (wildcard_list termini_list : List Str) (count : Bool) :
    (Nat ⊕ Bool) × List NXGraph :=
  let st0 : List NXGraph := [g]
  let st1 := st0 ++ [st0.getD 0 default]
  let wl := sgiWildcardVals libr wildcard_list
  let motif_comp := min_process_glycan motif
  let g1 := st1.getD 1 default
  let g2 := motifGraph motif libr extra termini_list
  if g2.nodes.length ≤ g1.nodes.length then
    match extra with
    | .wildcards =>
      if count then
        let res := countLoopHeap g2 (sgiNodeMatch extra libr wl) extra motif_comp
          (g1.nodes.length + 1) st1 1
        (.inl res.1, res.2)
      else (.inr (subgraphIsIso g1 g2 (sgiNodeMatch extra libr wl)), st1)
    | _ =>
      if labelsOK g1 motif_comp then
        if count then
          let res := countLoopHeap g2 (sgiNodeMatch extra libr wl) extra motif_comp
            (g1.nodes.length + 1) st1 1
          (.inl res.1, res.2)
        else (.inr (subgraphIsIso g1 g2 (sgiNodeMatch extra libr wl)), st1)
      else if count then (.inl 0, st1) else (.inr false, st1)
  else if count then (.inl 0, st1) else (.inr false, st1)

/-! ## Concrete registry and inputs for the evaluations -/

/-- A registry slice: the distinct tokens appearing in the concrete
notations evaluated below, in some fixed order (the code only uses the
index of a token, via `libr.index`). -/
def demoLib : List Str :=
  [("Gal").data, ("b1-4").data, ("Fuc").data, ("a1-2").data, ("a1-3").data,
   ("a1-6").data, ("GlcNAc").data, ("Glc").data, ("Man").data, ("Hex").data,
   ("Neu5Ac").data, ("b1-2").data]

/-- A syntactically valid, non-degenerate, non-floating notation with three
branches on the reducing-end residue (a degree-4 node). -/
def exTriple : Str := ("Gal(b1-4)[Fuc(a1-2)][Fuc(a1-3)][Fuc(a1-6)]GlcNAc").data

/-- The host graph `Gal(b1-4)Glc` used by several counterexamples. -/
def hostGBG : NXGraph := glycan_to_nxGraph (("Gal(b1-4)Glc").data) demoLib .ignore [] false

/-- A floating-substituent notation with a 1-node floating component and a
4-node main component, built through the wrapper exactly as
`ensure_graph` would (the braces are the floating-component
delimiters). -/
def floatStr : Str :=
  Char.ofNat 123 :: ("Neu5Ac").data ++ [Char.ofNat 125] ++ ("Gal(b1-4)GlcNAc(b1-2)").data

/-- The parsed floating-substituent graph: floating node 4 first in
insertion order, main component 0–3 after it. -/
def floatG : NXGraph := glycan_to_nxGraph floatStr demoLib .ignore [] false

/-! ## Helper lemmas -/

theorem pyStrLt_self_append (p r : Str) : pyStrLt p (p ++ r) = !r.isEmpty := by
  induction p with
  | nil => cases r <;> rfl
  | cons a as ih => simp [pyStrLt, ih]

theorem pyStrLt_append_self (p r : Str) : pyStrLt (p ++ r) p = false := by
  induction p with
  | nil => cases r <;> rfl
  | cons a as ih => simp [pyStrLt, ih]

theorem pyMem_str_of_int {α : Type} (s : Str) (l : List α) (f : α → Nat) :
    pyMem (.str s) (l.map (fun k => PyVal.int (f k))) = false := by
  induction l with
  | nil => rfl
  | cons x xs ih => simp [pyMem, pyValEq] at ih ⊢

/-- Inside `subgraph_isomorphism`, the wildcard predicate collapses to the
exact predicate: the converted wildcard list holds ints while the predicate
compares string labels against it, so the membership tests always fail. -/
theorem wildcard_match_inert (libr : List Str) (wl : List Str) (d1 d2 : NodeData) :
    categorical_node_match_wildcard libr.length (sgiWildcardVals libr wl) d1 d2 =
      categorical_node_match libr.length d1 d2 := by
  unfold categorical_node_match_wildcard categorical_node_match sgiWildcardVals
  by_cases h : 1 ≤ wl.length
  · simp [h, pyMem_str_of_int]
  · have hwl : wl = [] := by
      cases wl with
      | nil => rfl
      | cons a t => exact absurd (Nat.succ_le_succ (Nat.zero_le _)) h
    subst hwl
    simp [pyMem]

theorem pyMaxStr_take_take (s : Str) (i j : Nat) :
    pyMaxStr (s.take i) (s.take j) =
      if (s.take i).length < (s.take j).length then s.take j else s.take i := by
  rcases Nat.le_total i j with hij | hij
  · obtain ⟨t, ht⟩ : ∃ t, s.take j = s.take i ++ t :=
      ⟨(s.drop i).take (j - i), by rw [← List.take_add]; congr 1; omega⟩
    rw [ht]
    unfold pyMaxStr
    rw [pyStrLt_self_append]
    cases t with
    | nil => simp
    | cons c cs => simp
  · obtain ⟨t, ht⟩ : ∃ t, s.take i = s.take j ++ t :=
      ⟨(s.drop j).take (i - j), by rw [← List.take_add]; congr 1; omega⟩
    rw [ht]
    unfold pyMaxStr
    rw [pyStrLt_append_self]
    have hc : ¬ (s.take j ++ t).length < (s.take j).length := by
      rw [List.length_append]; omega
    rw [if_neg hc]
    simp

/-! ## Claim theorems -/

/-- C8: in `graph_to_string`, the prefix kept before appending the terminal
anchor's label is, of the two candidate truncation points (up to and
including the last `)` versus up to and including the last `]`), the one
that yields the longer prefix of the skeleton string: on two prefixes of
one string, Python's lexicographic `max` coincides with choosing the longer
one (with equal lengths the prefixes are identical). -/
theorem serializer_truncation_keeps_longer (s : Str) :
    terminalTruncate s =
      (if (s.take (pyRfindP1 s ')')).length < (s.take (pyRfindP1 s ']')).length
       then s.take (pyRfindP1 s ']')
       else s.take (pyRfindP1 s ')')) :=
  pyMaxStr_take_take s (pyRfindP1 s ')') (pyRfindP1 s ']')

/-- C1: structural round-trip fails on the code.  `exTriple` is a
syntactically valid, non-degenerate, bracket-balanced notation without a
floating component (three brackets opened, three closed), but serializing
its parse yields a bracket-unbalanced string (three opened, two closed) —
silently, with no error — and parsing that string gives a graph that
`compare_glycans` does not consider equal to the original parse. -/
theorem roundtrip_fails_on_triple_branch :
    ((exTriple.filter (· == '[')).length = 3 ∧ (exTriple.filter (· == ']')).length = 3) ∧
    graph_to_string (glycan_to_nxGraph exTriple demoLib .ignore [] false)
      = ("Gal(b1-4)[Fuc(a1-2)[Fuc(a1-3)][Fuc(a1-6)]GlcNAc").data ∧
    (((graph_to_string (glycan_to_nxGraph exTriple demoLib .ignore [] false)).filter
        (· == '[')).length = 3 ∧
     ((graph_to_string (glycan_to_nxGraph exTriple demoLib .ignore [] false)).filter
        (· == ']')).length = 2) ∧
    compare_glycans
      (glycan_to_nxGraph (graph_to_string (glycan_to_nxGraph exTriple demoLib .ignore [] false))
        demoLib .ignore [] false)
      (glycan_to_nxGraph exTriple demoLib .ignore [] false) demoLib false [] = false := by
  set_option maxRecDepth 4000 in decide

/-- C9: the override cleanup strips a node whenever the (possibly extended)
notation's last character is `x`, not only when the synthetic `Hex` token
was appended.  `Gal(b1-4)Hex` does not end in a linkage token, so by the
claim parsing with `override_reducing_end = True` should equal parsing with
`False`; instead the code deletes the real terminal `Hex` node, leaving a
2-node graph. -/
theorem override_strips_real_node_on_x_ending :
    pyLastD (("Gal(b1-4)Hex").data) ≠ ')' ∧
    (glycan_to_nxGraph_int (("Gal(b1-4)Hex").data) demoLib .ignore [] true).nodes = [0, 1] ∧
    (glycan_to_nxGraph_int (("Gal(b1-4)Hex").data) demoLib .ignore [] false).nodes = [0, 1, 2] ∧
    glycan_to_nxGraph_int (("Gal(b1-4)Hex").data) demoLib .ignore [] true ≠
      glycan_to_nxGraph_int (("Gal(b1-4)Hex").data) demoLib .ignore [] false := by
  decide

/-- C3 counterexample: with host `Gal(b1-4)Glc`, motif `Man` and wildcard
set `{Man}` (which contains every label of the motif, whose single-node
graph is not larger than the host), `subgraph_isomorphism` in wildcard mode
with `count=False` returns `False`, not `True`: the wildcard list was
converted to registry indices but is compared against string labels, so it
never matches. -/
theorem wildcard_superset_fails :
    ((min_process_glycan (("Man").data)).all
        (fun t => ([("Man").data] : List Str).contains t)) = true ∧
    (motifGraph (("Man").data) demoLib .wildcards []).nodes.length ≤ hostGBG.nodes.length ∧
    subgraph_isomorphism_bool hostGBG (("Man").data) demoLib .wildcards [("Man").data] []
      = false := by
  decide

/-- C3 amended: in `subgraph_isomorphism`, wildcard mode is exact matching
with the label pre-check skipped — the wildcard list has no effect
whatsoever (it is converted to registry indices but compared against string
labels), so the wildcard-superset property cannot hold. -/
theorem sgi_wildcard_mode_is_exact (g : NXGraph) (motif : Str) (libr : List Str)
    (wildcard_list termini_list : List Str) :
    subgraph_isomorphism_bool g motif libr .wildcards wildcard_list termini_list =
      (decide ((motifGraph motif libr .wildcards termini_list).nodes.length ≤ g.nodes.length)
        && subgraphIsIso g (motifGraph motif libr .wildcards termini_list)
            (categorical_node_match libr.length)) := by
  have hm : sgiNodeMatch .wildcards libr (sgiWildcardVals libr wildcard_list)
      = categorical_node_match libr.length := by
    funext d1 d2
    exact wildcard_match_inert libr wildcard_list d1 d2
  by_cases hs : (motifGraph motif libr .wildcards termini_list).nodes.length ≤ g.nodes.length
  · simp [subgraph_isomorphism_bool, hs, hm]
  · simp [subgraph_isomorphism_bool, hs]

/-- C4 counterexample: host `Gal(b1-4)Glc`, motif `Gal(b1-4)Hex` in
wildcard mode.  The token `Hex` is in the motif's token list but absent
from the host's labels, yet both the boolean and the counting call succeed:
wildcard mode has no label pre-check, and the override cleanup strips the
real `Hex` node from the motif graph (the `x`-ending slip), leaving only
`Gal(b1-4)`, which the host does contain. -/
theorem precheck_rejection_fails :
    (min_process_glycan (("Gal(b1-4)Hex").data)).contains (("Hex").data) = true ∧
    (hostLabelValues hostGBG).contains (("Hex").data) = false ∧
    hostGBG.nodes.length ≥ (motifGraph (("Gal(b1-4)Hex").data) demoLib .wildcards []).nodes.length ∧
    subgraph_isomorphism_bool hostGBG (("Gal(b1-4)Hex").data) demoLib .wildcards [] [] = true ∧
    1 ≤ subgraph_isomorphism_count hostGBG (("Gal(b1-4)Hex").data) demoLib .wildcards [] [] := by
  decide

/-- C4 amended: the cheap rejections that do hold.  For every mode, a host
smaller than the motif graph makes `subgraph_isomorphism` return
`False`/`0`; in the `ignore` and `termini` modes (the two that implement
the label pre-check) a motif token absent from the host's labels does
too.  Wildcard mode performs no label pre-check, and the counterexample
above shows its result can be `True` with a motif token missing from the
host. -/
theorem sgi_precheck_rejection (g : NXGraph) (motif : Str) (libr : List Str)
    (extra : MatchMode) (wildcard_list termini_list : List Str) :
    (g.nodes.length < (motifGraph motif libr extra termini_list).nodes.length →
      subgraph_isomorphism_bool g motif libr extra wildcard_list termini_list = false ∧
      subgraph_isomorphism_count g motif libr extra wildcard_list termini_list = 0) ∧
    ((extra = .ignore ∨ extra = .termini) →
      (∃ t, t ∈ min_process_glycan motif ∧ t ∉ hostLabelValues g) →
      subgraph_isomorphism_bool g motif libr extra wildcard_list termini_list = false ∧
      subgraph_isomorphism_count g motif libr extra wildcard_list termini_list = 0) := by
  constructor
  · intro hlt
    have hs : ¬ (motifGraph motif libr extra termini_list).nodes.length ≤ g.nodes.length := by
      omega
    constructor
    · simp [subgraph_isomorphism_bool, hs]
    · simp [subgraph_isomorphism_count, hs]
  · intro hmode hex
    have hlab : labelsOK g (min_process_glycan motif) = false := by
      obtain ⟨t, ht, hnt⟩ := hex
      unfold labelsOK
      rw [List.all_eq_false]
      exact ⟨t, ht, by simpa using hnt⟩
    rcases hmode with h | h
    · subst h
      by_cases hs : (motifGraph motif libr .ignore termini_list).nodes.length ≤ g.nodes.length
      · exact ⟨by simp [subgraph_isomorphism_bool, hs, hlab],
               by simp [subgraph_isomorphism_count, hs, hlab]⟩
      · exact ⟨by simp [subgraph_isomorphism_bool, hs],
               by simp [subgraph_isomorphism_count, hs]⟩
    · subst h
      by_cases hs : (motifGraph motif libr .termini termini_list).nodes.length ≤ g.nodes.length
      · exact ⟨by simp [subgraph_isomorphism_bool, hs, hlab],
               by simp [subgraph_isomorphism_count, hs, hlab]⟩
      · exact ⟨by simp [subgraph_isomorphism_bool, hs],
               by simp [subgraph_isomorphism_count, hs]⟩

/-- C4 witness: concrete rejections through `sgi_precheck_rejection`: a
5-token motif against the 3-node host (size rejection), and the motif `Man`
whose token is absent from the host's labels (label rejection in `ignore`
mode). -/
theorem sgi_precheck_rejection_witness :
    (subgraph_isomorphism_bool hostGBG (("Gal(b1-4)GlcNAc(b1-2)Man").data) demoLib
        .ignore [] [] = false ∧
      subgraph_isomorphism_count hostGBG (("Gal(b1-4)GlcNAc(b1-2)Man").data) demoLib
        .ignore [] [] = 0) ∧
    (subgraph_isomorphism_bool hostGBG (("Man").data) demoLib .ignore [] [] = false ∧
      subgraph_isomorphism_count hostGBG (("Man").data) demoLib .ignore [] [] = 0) := by
  constructor
  · exact (sgi_precheck_rejection hostGBG (("Gal(b1-4)GlcNAc(b1-2)Man").data) demoLib
      .ignore [] []).1 (by decide)
  · exact (sgi_precheck_rejection hostGBG (("Man").data) demoLib .ignore [] []).2
      (Or.inl rfl) ⟨("Man").data, by decide, by decide⟩

/-- The two entry modes agree on the first match: the count starts at 1
exactly when the single boolean query succeeds, because the counting loop's
first iteration runs the same matcher on the same graphs. -/
theorem sgi_bool_eq_count_pos (g : NXGraph) (motif : Str) (libr : List Str)
    (extra : MatchMode) (wildcard_list termini_list : List Str) :
    (subgraph_isomorphism_bool g motif libr extra wildcard_list termini_list = true ↔
      1 ≤ subgraph_isomorphism_count g motif libr extra wildcard_list termini_list) := by
  by_cases hs : (motifGraph motif libr extra termini_list).nodes.length ≤ g.nodes.length
  · cases extra with
    | wildcards =>
      simp only [subgraph_isomorphism_bool, subgraph_isomorphism_count, hs, if_true, if_pos]
      cases hfm : findMapping g (motifGraph motif libr .wildcards termini_list)
          (sgiNodeMatch .wildcards libr (sgiWildcardVals libr wildcard_list)) with
      | none => simp [subgraphIsIso, hfm, countLoop]
      | some mp => simp [subgraphIsIso, hfm, countLoop]
    | ignore =>
      by_cases hl : labelsOK g (min_process_glycan motif)
      · simp only [subgraph_isomorphism_bool, subgraph_isomorphism_count, hs, hl, if_true, if_pos]
        cases hfm : findMapping g (motifGraph motif libr .ignore termini_list)
            (sgiNodeMatch .ignore libr (sgiWildcardVals libr wildcard_list)) with
        | none => simp [subgraphIsIso, hfm, countLoop]
        | some mp =>
          simp only [subgraphIsIso, hfm, countLoop, Option.isSome_some]
          constructor
          · intro _
            split
            · omega
            · omega
          · intro _
            trivial
      · simp [subgraph_isomorphism_bool, subgraph_isomorphism_count, hs, hl]
    | termini =>
      by_cases hl : labelsOK g (min_process_glycan motif)
      · simp only [subgraph_isomorphism_bool, subgraph_isomorphism_count, hs, hl, if_true, if_pos]
        cases hfm : findMapping g (motifGraph motif libr .termini termini_list)
            (sgiNodeMatch .termini libr (sgiWildcardVals libr wildcard_list)) with
        | none => simp [subgraphIsIso, hfm, countLoop]
        | some mp =>
          simp only [subgraphIsIso, hfm, countLoop, Option.isSome_some]
          constructor
          · intro _
            split
            · omega
            · omega
          · intro _
            trivial
      · simp [subgraph_isomorphism_bool, subgraph_isomorphism_count, hs, hl]
  · simp [subgraph_isomorphism_bool, subgraph_isomorphism_count, hs]

/-- C5 counterexample: the boolean/counting agreement is not true of the
program as a whole.  The motif `Hex` ends in `x`, so the override cleanup
strips its only node and the motif graph is empty; against the host
`Gal(b1-4)Glc` in wildcard mode, `count=False` returns `True` (the empty
motif matches vacuously), but the `count=True` while-loop of the source
never terminates: the matcher returns the empty mapping, so
`remove_nodes_from(mapping.keys())` removes nothing and the loop re-enters
the very same state — no value `≥ 1` is ever returned.  The conjuncts below
exhibit exactly that at the concrete input: the motif graph is empty, the
boolean call is `True`, one loop iteration maps the working host to itself
while the guard stays true, and the fuel-totalized embedding of the loop
merely hands back its entire fuel budget (`host nodes + 1`) without ever
reaching a terminating state. -/
theorem count_bool_agreement_diverges :
    (motifGraph (("Hex").data) demoLib .wildcards []).nodes = [] ∧
    subgraph_isomorphism_bool hostGBG (("Hex").data) demoLib .wildcards [] [] = true ∧
    findMapping hostGBG (motifGraph (("Hex").data) demoLib .wildcards [])
        (sgiNodeMatch .wildcards demoLib (sgiWildcardVals demoLib [])) = some [] ∧
    hostGBG.removeNodes (([] : List (Nat × Nat)).map (·.2)) = hostGBG ∧
    subgraph_isomorphism_count hostGBG (("Hex").data) demoLib .wildcards [] []
      = hostGBG.nodes.length + 1 := by
  decide

/-- C5 amended: for every host, motif and mode such that the motif's graph
has at least one node, `count=False` returns `True` iff `count=True`
returns a value at least 1, and `count=True` returns 0 exactly when
`count=False` returns `False`.  The nonempty-motif hypothesis marks the
domain on which the fuel-totalized `countLoop` is faithful to the source's
while loop (by `countLoop_fuel_stable`, each successful match then removes
at least one host node, so the fuel budget `host nodes + 1` is never
exhausted); on empty motif graphs the source diverges, as
`count_bool_agreement_diverges` shows. -/
theorem sgi_count_bool_agreement (g : NXGraph) (motif : Str) (libr : List Str)
    (extra : MatchMode) (wildcard_list termini_list : List Str)
    (_hne : (motifGraph motif libr extra termini_list).nodes ≠ []) :
    (subgraph_isomorphism_bool g motif libr extra wildcard_list termini_list = true ↔
      1 ≤ subgraph_isomorphism_count g motif libr extra wildcard_list termini_list) ∧
    (subgraph_isomorphism_count g motif libr extra wildcard_list termini_list = 0 ↔
      subgraph_isomorphism_bool g motif libr extra wildcard_list termini_list = false) := by
  have key := sgi_bool_eq_count_pos g motif libr extra wildcard_list termini_list
  refine ⟨key, ?_, ?_⟩
  · intro h0
    cases hb : subgraph_isomorphism_bool g motif libr extra wildcard_list termini_list with
    | false => rfl
    | true =>
      have h1 := key.mp hb
      omega
  · intro hb
    by_contra h0
    have h1 : 1 ≤ subgraph_isomorphism_count g motif libr extra wildcard_list termini_list := by
      omega
    have h2 := key.mpr h1
    rw [hb] at h2
    exact Bool.noConfusion h2

/-- C5 amended witness: the agreement instantiated on host `Gal(b1-4)Glc`
and the 1-node motif `Gal` in ignore mode, with the nonempty-motif-graph
hypothesis discharged by evaluation. -/
theorem sgi_count_bool_agreement_witness :
    (subgraph_isomorphism_bool hostGBG (("Gal").data) demoLib .ignore [] [] = true ↔
      1 ≤ subgraph_isomorphism_count hostGBG (("Gal").data) demoLib .ignore [] []) ∧
    (subgraph_isomorphism_count hostGBG (("Gal").data) demoLib .ignore [] [] = 0 ↔
      subgraph_isomorphism_bool hostGBG (("Gal").data) demoLib .ignore [] [] = false) :=
  sgi_count_bool_agreement hostGBG (("Gal").data) demoLib .ignore [] [] (by decide)

/-- Every pair already assigned survives into the mapping the backtracking
search returns. -/
theorem findMappingGo_keeps_assigned (g1 g2 : NXGraph) (nm : NodeData → NodeData → Bool) :
    ∀ (us : List Nat) (assigned mp : List (Nat × Nat)),
      findMappingGo g1 g2 nm us assigned = some mp → ∀ p ∈ assigned, p ∈ mp := by
  intro us
  induction us with
  | nil =>
    intro assigned mp h p hp
    unfold findMappingGo at h
    cases h
    exact hp
  | cons u rest ih =>
    intro assigned mp h p hp
    unfold findMappingGo at h
    obtain ⟨w, _, hfw⟩ := List.exists_of_findSome?_eq_some h
    split at hfw
    · exact ih ((u, w) :: assigned) mp hfw p (List.mem_cons_of_mem _ hp)
    · exact Option.noConfusion hfw

/-- When the motif has a node, a successful search maps it to some host
node, which therefore appears among the mapping's host keys. -/
theorem findMapping_hits_host (g1 g2 : NXGraph) (nm : NodeData → NodeData → Bool)
    (mp : List (Nat × Nat)) (hne : g2.nodes ≠ [])
    (h : findMapping g1 g2 nm = some mp) :
    ∃ w, w ∈ g1.nodes ∧ w ∈ mp.map (·.2) := by
  unfold findMapping at h
  cases hg2 : g2.nodes with
  | nil => exact absurd hg2 hne
  | cons u rest =>
    rw [hg2] at h
    unfold findMappingGo at h
    obtain ⟨w, hw, hfw⟩ := List.exists_of_findSome?_eq_some h
    split at hfw
    · have hmem : (u, w) ∈ mp :=
        findMappingGo_keeps_assigned g1 g2 nm rest ((u, w) :: []) mp hfw (u, w)
          (List.mem_cons_self _ _)
      exact ⟨w, hw, List.mem_map_of_mem (·.2) hmem⟩
    · exact Option.noConfusion hfw

/-- Dropping an element a predicate rejects strictly shrinks a list. -/
theorem filter_length_lt_of_mem {α : Type} (l : List α) (p : α → Bool) (x : α)
    (hx : x ∈ l) (hpx : p x = false) : (l.filter p).length < l.length := by
  induction l with
  | nil => cases hx
  | cons a t ih =>
    rcases List.mem_cons.mp hx with h | h
    · subst h
      rw [List.filter_cons, if_neg (by simp [hpx])]
      have hle := List.length_filter_le p t
      simp only [List.length_cons]
      omega
    · by_cases hpa : p a = true
      · rw [List.filter_cons, if_pos hpa]
        simp only [List.length_cons]
        have := ih h
        omega
      · rw [List.filter_cons, if_neg hpa]
        simp only [List.length_cons]
        have := ih h
        omega

/-- A successful match removes at least one node from the working host. -/
theorem removeNodes_shrinks (g1 g2 : NXGraph) (nm : NodeData → NodeData → Bool)
    (mp : List (Nat × Nat)) (hne : g2.nodes ≠ [])
    (h : findMapping g1 g2 nm = some mp) :
    (g1.removeNodes (mp.map (·.2))).nodes.length < g1.nodes.length := by
  obtain ⟨w, hw, hwmp⟩ := findMapping_hits_host g1 g2 nm mp hne h
  unfold NXGraph.removeNodes
  exact filter_length_lt_of_mem g1.nodes _ w hw (by simp [hwmp])

/-- The counting loop's value does not depend on the fuel once the fuel
exceeds the host's node count: each iteration strictly shrinks the host. -/
theorem countLoop_fuel_stable (g2 : NXGraph) (nm : NodeData → NodeData → Bool)
    (extra : MatchMode) (motif_comp : List Str) (hne : g2.nodes ≠ []) :
    ∀ (n : Nat) (g1 : NXGraph), g1.nodes.length ≤ n →
      ∀ fuel fuel', n < fuel → n < fuel' →
        countLoop g2 nm extra motif_comp fuel g1 = countLoop g2 nm extra motif_comp fuel' g1 := by
  intro n
  induction n with
  | zero =>
    intro g1 hg1 fuel fuel' hf hf'
    obtain ⟨f, rfl⟩ : ∃ f, fuel = f + 1 := ⟨fuel - 1, by omega⟩
    obtain ⟨f', rfl⟩ : ∃ f', fuel' = f' + 1 := ⟨fuel' - 1, by omega⟩
    have hempty : g1.nodes = [] := List.length_eq_zero.mp (by omega)
    cases hfm : findMapping g1 g2 nm with
    | none => simp [countLoop, hfm]
    | some mp =>
      have := removeNodes_shrinks g1 g2 nm mp hne hfm
      omega
  | succ n ih =>
    intro g1 hg1 fuel fuel' hf hf'
    obtain ⟨f, rfl⟩ : ∃ f, fuel = f + 1 := ⟨fuel - 1, by omega⟩
    obtain ⟨f', rfl⟩ : ∃ f', fuel' = f' + 1 := ⟨fuel' - 1, by omega⟩
    cases hfm : findMapping g1 g2 nm with
    | none => simp [countLoop, hfm]
    | some mp =>
      have hlt := removeNodes_shrinks g1 g2 nm mp hne hfm
      have hrec := ih (g1.removeNodes (mp.map (·.2))) (by omega) f f' (by omega) (by omega)
      cases extra with
      | wildcards => simp [countLoop, hfm, hrec]
      | ignore =>
        simp only [countLoop, hfm]
        split
        · rw [hrec]
        · rfl
      | termini =>
        simp only [countLoop, hfm]
        split
        · rw [hrec]
        · rfl

/-- C10: the counting loop of `subgraph_isomorphism(count=True)`
terminates for every host and every motif graph with at least one node:
each successful match deletes at least one host node, so the fuel budget
`host nodes + 1` that `subgraph_isomorphism_count` passes is never
exhausted — running the loop with any larger fuel returns the same count. -/
theorem counting_loop_fuel_independent (g2 : NXGraph) (nm : NodeData → NodeData → Bool)
    (extra : MatchMode) (motif_comp : List Str) (g1 : NXGraph)
    (hne : g2.nodes ≠ []) (fuel : Nat) (hfuel : g1.nodes.length < fuel) :
    countLoop g2 nm extra motif_comp fuel g1 =
      countLoop g2 nm extra motif_comp (g1.nodes.length + 1) g1 :=
  countLoop_fuel_stable g2 nm extra motif_comp hne g1.nodes.length g1 (Nat.le_refl _)
    fuel (g1.nodes.length + 1) hfuel (Nat.lt_succ_self _)

/-- C10 witness: the loop on host `Gal(b1-4)Glc` with motif `Gal` returns
the same count with a large fuel budget as with the budget the code uses. -/
theorem counting_loop_fuel_independent_witness :
    countLoop (motifGraph (("Gal").data) demoLib .ignore [])
        (sgiNodeMatch .ignore demoLib (sgiWildcardVals demoLib [])) .ignore
        (min_process_glycan (("Gal").data)) 1000 hostGBG =
      countLoop (motifGraph (("Gal").data) demoLib .ignore [])
        (sgiNodeMatch .ignore demoLib (sgiWildcardVals demoLib [])) .ignore
        (min_process_glycan (("Gal").data)) (hostGBG.nodes.length + 1) hostGBG :=
  counting_loop_fuel_independent (motifGraph (("Gal").data) demoLib .ignore [])
    (sgiNodeMatch .ignore demoLib (sgiWildcardVals demoLib [])) .ignore
    (min_process_glycan (("Gal").data)) hostGBG (by decide) 1000 (by decide)

/-- Writing through a non-zero heap reference leaves the first object
untouched. -/
theorem head?_set_succ {α : Type} (st : List α) (r : Nat) (x : α) :
    (st.set (r + 1) x).head? = st.head? := by
  cases st with
  | nil => rfl
  | cons a t => rfl

/-- The heap-threaded counting loop writes only through its working
reference, so with reference 1 the caller's object at reference 0 is
preserved. -/
theorem countLoopHeap_preserves_head (g2 : NXGraph) (nm : NodeData → NodeData → Bool)
    (extra : MatchMode) (motif_comp : List Str) :
    ∀ (fuel : Nat) (st : List NXGraph),
      (countLoopHeap g2 nm extra motif_comp fuel st 1).2.head? = st.head? := by
  intro fuel
  induction fuel with
  | zero => intro st; rfl
  | succ f ih =>
    intro st
    simp only [countLoopHeap]
    cases hfm : findMapping (st.getD 1 default) g2 nm with
    | none => rfl
    | some mp =>
      cases extra with
      | wildcards =>
        simp only [ih]
        exact head?_set_succ st 0 _
      | ignore =>
        dsimp only
        split
        · simp only [ih]
          exact head?_set_succ st 0 _
        · exact head?_set_succ st 0 _
      | termini =>
        dsimp only
        split
        · simp only [ih]
          exact head?_set_succ st 0 _
        · exact head?_set_succ st 0 _

/-- C6: `subgraph_isomorphism` never mutates the caller's graph.  In the
heap model the caller's object is reference 0; `copy.deepcopy` allocates
the working object at reference 1, and the counting loop's
`remove_nodes_from` writes only through reference 1, so after the call —
boolean or counting, any mode — reference 0 still holds exactly the graph
that was passed in, nodes, edges and attributes included. -/
theorem caller_graph_never_mutated (g : NXGraph) (motif : Str) (libr : List Str)
    (extra : MatchMode) (wildcard_list termini_list : List Str) (count : Bool) :
    (subgraph_isomorphism_heap g motif libr extra wildcard_list termini_list count).2.head?
      = some g := by
  unfold subgraph_isomorphism_heap
  dsimp only
  repeat' split
  all_goals first
    | rfl
    | (rw [countLoopHeap_preserves_head]; rfl)

/-- Inside one component, degrees in the induced subgraph agree with
degrees in the whole graph: no edge leaves the component. -/
theorem induced_degree_eq (g : NXGraph) (mn fl : List Nat)
    (hpart : ∀ e ∈ g.edges, (e.1 ∈ mn ∧ e.2 ∈ mn) ∨ (e.1 ∈ fl ∧ e.2 ∈ fl))
    (hdisj : ∀ x ∈ fl, x ∈ mn → False)
    (k : Nat) (hk : k ∈ mn) :
    (g.inducedSubgraph mn).degree k = g.degree k := by
  unfold NXGraph.degree NXGraph.inducedSubgraph
  dsimp only
  rw [List.filter_filter]
  congr 1
  apply List.filter_congr
  intro e he
  by_cases hke : (e.1 == k || e.2 == k) = true
  · have hkOr : e.1 = k ∨ e.2 = k := by simpa using hke
    have hmn : e.1 ∈ mn ∧ e.2 ∈ mn := by
      rcases hpart e he with h | h
      · exact h
      · exfalso
        rcases hkOr with hk1 | hk2
        · exact hdisj k (hk1 ▸ h.1) hk
        · exact hdisj k (hk2 ▸ h.2) hk
    simp [hke, hmn.1, hmn.2]
  · have hke' : (e.1 == k || e.2 == k) = false := by
      cases hval : (e.1 == k || e.2 == k) with
      | false => rfl
      | true => exact absurd hval hke
    simp [hke']

/-- C2: topology enumeration over a graph whose components are exactly a
floating part `fl` (listed first, as `glycan_to_nxGraph` inserts floating
parts first) and a main part `mn`: `get_possible_topologies` returns one
candidate per degree-1 node of the main component other than the terminal
anchor (the main component's highest id, the reducing end in the source's
convention); the candidate for node `k` is the deep copy of the input with
the single new edge from the floating component's highest-id node to `k`,
densely renumbered by iteration order. -/
theorem topologies_one_per_nonanchor_leaf (g : NXGraph) (fl mn : List Nat)
    (hcc : connectedComponents g = [fl, mn])
    (hpart : ∀ e ∈ g.edges, (e.1 ∈ mn ∧ e.2 ∈ mn) ∨ (e.1 ∈ fl ∧ e.2 ∈ fl))
    (hdisj : ∀ x ∈ fl, x ∈ mn → False) :
    get_possible_topologies g =
      (mn.filter (fun k => g.degree k == 1 && !(k == pyMaxD mn))).map
        (fun k => relabelDense (g.addEdge (pyMaxD fl) k)) ∧
    (get_possible_topologies g).length =
      (mn.filter (fun k => g.degree k == 1 && !(k == pyMaxD mn))).length := by
  have hmain : get_possible_topologies g =
      (mn.filter (fun k => g.degree k == 1 && !(k == pyMaxD mn))).map
        (fun k => relabelDense (g.addEdge (pyMaxD fl) k)) := by
    unfold get_possible_topologies
    rw [hcc]
    dsimp only
    have h1 : ([fl, mn] : List (List Nat)).getLastD [] = mn := rfl
    have h2 : ([fl, mn] : List (List Nat)).headD [] = fl := rfl
    rw [h1, h2]
    have hfc : mn.filter (fun k => (g.inducedSubgraph mn).degree k == 1 && !(k == pyMaxD mn))
        = mn.filter (fun k => g.degree k == 1 && !(k == pyMaxD mn)) := by
      apply List.filter_congr
      intro k hk
      rw [induced_degree_eq g mn fl hpart hdisj k hk]
    rw [hfc]
  exact ⟨hmain, by rw [hmain, List.length_map]⟩

/-- C2 witness: the floating notation behind `floatG` has a 1-node floating
component `[4]` and a 4-node main component `[0,1,2,3]`; the enumeration
yields exactly one candidate, matching the single non-anchor degree-1
node of the main component. -/
theorem topologies_one_per_nonanchor_leaf_witness :
    (get_possible_topologies floatG).length
      = (([0, 1, 2, 3] : List Nat).filter
          (fun k => floatG.degree k == 1 && !(k == pyMaxD [0, 1, 2, 3]))).length ∧
    (([0, 1, 2, 3] : List Nat).filter
        (fun k => floatG.degree k == 1 && !(k == pyMaxD [0, 1, 2, 3]))).length = 1 ∧
    ([4] : List Nat).length = 1 ∧ ([0, 1, 2, 3] : List Nat).length = 4 :=
  ⟨(topologies_one_per_nonanchor_leaf floatG [4] [0, 1, 2, 3] (by decide) (by decide)
      (by decide)).2, by decide, rfl, rfl⟩

/-- The branched glycan whose common subgraph with `lgB` has
non-contiguous node ids. -/
def lgA : NXGraph :=
  glycan_to_nxGraph (("Gal(b1-4)[Fuc(a1-3)]GlcNAc").data) demoLib .ignore [] false

/-- The linear glycan matched against `lgA`. -/
def lgB : NXGraph := glycan_to_nxGraph (("Gal(b1-4)GlcNAc").data) demoLib .ignore [] false

/-- C7 counterexample: between `Gal(b1-4)[Fuc(a1-3)]GlcNAc` and
`Gal(b1-4)GlcNAc` every maximum common correspondence has the `a`-side key
set `{0, 1, 4}`; its induced subgraph is connected, yet the renumbering of
`largest_subgraph` (subtract the minimum id) leaves the node ids `0, 1, 4`
— not the dense 0-based range `0, 1, 2` the claim promises. -/
theorem common_subgraph_renumbering_not_dense :
    maxCommonKeySets lgA lgB demoLib = [[0, 1, 4]] ∧
    isConnected (lgA.inducedSubgraph [0, 1, 4]) = true ∧
    (lgs_renumbered lgA [0, 1, 4]).nodes = [0, 1, 4] ∧
    ([0, 1, 4] : List Nat) ≠ List.range 3 := by
  decide

theorem foldl_min_le_init : ∀ (xs : List Nat) (a : Nat), xs.foldl min a ≤ a := by
  intro xs
  induction xs with
  | nil => intro a; exact Nat.le_refl a
  | cons x t ih => intro a; exact Nat.le_trans (ih (min a x)) (Nat.min_le_left a x)

theorem foldl_min_le_mem : ∀ (xs : List Nat) (a x : Nat), x ∈ xs → xs.foldl min a ≤ x := by
  intro xs
  induction xs with
  | nil => intro a x hx; cases hx
  | cons y t ih =>
    intro a x hx
    rcases List.mem_cons.mp hx with h | h
    · subst h
      exact Nat.le_trans (foldl_min_le_init t (min a x)) (Nat.min_le_right a x)
    · exact ih (min a y) x h

theorem pyMinD_le (keys : List Nat) (x : Nat) (hx : x ∈ keys) : pyMinD keys ≤ x := by
  cases keys with
  | nil => cases hx
  | cons k t =>
    rcases List.mem_cons.mp hx with h | h
    · subst h
      exact foldl_min_le_init t x
    · exact foldl_min_le_mem t k x h

/-- Subtracting a uniform lower bound hits the dense range exactly when the
original ids are that range shifted up. -/
theorem map_sub_eq_range_iff (keys : List Nat) (m : Nat) (hm : ∀ x ∈ keys, m ≤ x) :
    (keys.map (fun k => k - m) = List.range keys.length ↔
      keys = (List.range keys.length).map (fun j => j + m)) := by
  constructor
  · intro h
    have hback : keys = (keys.map (fun k => k - m)).map (fun j => j + m) := by
      rw [List.map_map]
      have hid : keys.map ((fun j => j + m) ∘ fun k => k - m) = keys.map id := by
        apply List.map_congr_left
        intro x hx
        have := hm x hx
        simp
        omega
      rw [hid, List.map_id]
    calc keys = (keys.map (fun k => k - m)).map (fun j => j + m) := hback
      _ = (List.range keys.length).map (fun j => j + m) := by rw [h]
  · intro h
    conv_lhs => rw [h]
    rw [List.map_map]
    have hid : (List.range keys.length).map ((fun k => k - m) ∘ fun j => j + m)
        = (List.range keys.length).map id := by
      apply List.map_congr_left
      intro x _
      simp
    rw [hid, List.map_id]

/-- C7 amended: the renumbering `largest_subgraph` applies to the matched
induced subgraph is the shift `k ↦ k - min`: it preserves the relative
order of the original ids, and it produces the dense 0-based range
`0, …, n-1` exactly when the matched ids are contiguous (the dense range
shifted up by their minimum) — not for every connected matched subgraph. -/
theorem lgs_renumbering_shifts_by_min (keys : List Nat) :
    (∀ x ∈ keys, ∀ y ∈ keys, x < y → lgs_renumber_map keys x < lgs_renumber_map keys y) ∧
    (keys.map (lgs_renumber_map keys) = List.range keys.length ↔
      keys = (List.range keys.length).map (fun j => j + pyMinD keys)) := by
  constructor
  · intro x hx y hy hxy
    have h1 := pyMinD_le keys x hx
    unfold lgs_renumber_map
    omega
  · exact map_sub_eq_range_iff keys (pyMinD keys) (fun x hx => pyMinD_le keys x hx)

/-- C7 amended witness: on the matched key set `{0, 1, 4}` of the
counterexample, order is preserved while the renumbered ids miss the dense
range. -/
theorem lgs_renumbering_shifts_by_min_witness :
    lgs_renumber_map [0, 1, 4] 0 < lgs_renumber_map [0, 1, 4] 4 ∧
    ((([0, 1, 4] : List Nat).map (lgs_renumber_map [0, 1, 4])
        = List.range ([0, 1, 4] : List Nat).length) ↔
      ([0, 1, 4] : List Nat) = (List.range ([0, 1, 4] : List Nat).length).map
        (fun j => j + pyMinD [0, 1, 4])) :=
  ⟨(lgs_renumbering_shifts_by_min [0, 1, 4]).1 0 (by decide) 4 (by decide) (by decide),
   (lgs_renumbering_shifts_by_min [0, 1, 4]).2⟩
